import Mathlib

set_option maxRecDepth 8192

/-!
Shallow embedding of `django/db/backends/oracle/query.py`: the Oracle
query-class factory (`query_class`), the `OracleQuery` operations
(`resolve_columns`, `convert_values`, `as_sql`, `set_limits`,
`clear_limits`), and the process-wide class cache.

The base query class (`django.db.models.sql.query.Query`) and the helper
`django.db.backends.util.typecast_decimal` live elsewhere in the
repository; their behavior, where needed, is modelled from the spec and
marked as such.
-/

namespace OracleBackend

/-- Timestamp components as carried by the driver's timestamp objects and by
Python `datetime.datetime` (`fsecond` maps to `microsecond`). -/
structure TS where
  year : Nat
  month : Nat
  day : Nat
  hour : Nat
  minute : Nat
  second : Nat
  microsecond : Nat
deriving DecidableEq, Repr

/-- Raw / converted cell values flowing between the driver and the ORM.
`null` is Python `None`; `lob` is a driver large-object handle holding its
content; `timestamp` is the driver's own timestamp class, `datetime` a
Python `datetime.datetime`; `date` / `time` are Python `datetime.date` /
`datetime.time`; `decimal` is an exact decimal rendered from its string. -/
inductive Value where
  | null
  | int (n : Int)
  | str (s : String)
  | bool (b : Bool)
  | lob (data : String)
  | timestamp (t : TS)
  | datetime (t : TS)
  | date (y m d : Nat)
  | time (h mi s us : Nat)
  | decimal (s : String)
deriving DecidableEq, Repr

/-- The logical kind of a field descriptor, replacing the `isinstance`
checks on Django field classes (`BooleanField`, `NullBooleanField`,
`DecimalField`, `DateField`, `DateTimeField`, `TimeField`). -/
inductive FieldKind where
  | plain
  | boolean
  | nullBoolean
  | decimal
  | date
  | dateTime
  | time
deriving DecidableEq, Repr

/-- Field descriptor: the capability metadata `convert_values` consults.
`format_number` stands for `DecimalField.format_number`.
Modelled from the spec: "render through the field's number-formatting
rule" (the field class itself is outside this file). -/
structure FieldDesc where
  empty_strings_allowed : Bool
  kind : FieldKind
  format_number : Value → String

/-- The driver module (`cx_Oracle`), reduced to what the code uses: the
`Database.LOB` type marker with its `read()` operation and the
`Database.Timestamp` type marker. -/
structure Database where
  isLOB : Value → Bool
  readLOB : Value → Value
  isTimestamp : Value → Bool

/-- The concrete `cx_Oracle` driver: `LOB` matches large-object handles and
`read()` materializes their content; `Timestamp` matches both the driver's
own timestamp class and `datetime.datetime` (which it aliases in the
driver). -/
def cxOracle : Database where
  isLOB := fun v => match v with | .lob _ => true | _ => false
  readLOB := fun v => match v with | .lob s => .str s | _ => v
  isTimestamp := fun v => match v with | .timestamp _ => true | .datetime _ => true | _ => false

/-- Python `isinstance(field, Field)` and `field.empty_strings_allowed`: a Python
`None` field never passes the `isinstance` check. -/
def fieldAllowsEmpty : Option FieldDesc → Bool
  | some f => f.empty_strings_allowed
  | none => false

/-- Python `isinstance(field, (BooleanField, NullBooleanField))`. -/
def fieldIsBool : Option FieldDesc → Bool
  | some f => f.kind = FieldKind.boolean ∨ f.kind = FieldKind.nullBoolean
  | none => false

/-- Python `isinstance(field, DecimalField)`. -/
def fieldIsDecimal : Option FieldDesc → Bool
  | some f => f.kind = FieldKind.decimal
  | none => false

/-- Python `isinstance(field, DateTimeField)`. -/
def fieldIsDateTime : Option FieldDesc → Bool
  | some f => f.kind = FieldKind.dateTime
  | none => false

/-- Python `isinstance(field, DateField)`; `DateTimeField` subclasses `DateField`,
so it also passes this check. -/
def fieldIsDateField : Option FieldDesc → Bool
  | some f => f.kind = FieldKind.date ∨ f.kind = FieldKind.dateTime
  | none => false

/-- Python `isinstance(field, TimeField)`. -/
def fieldIsTime : Option FieldDesc → Bool
  | some f => f.kind = FieldKind.time
  | none => false

/-- Python `value == n` against an int: Python ints compare equal to ints
and `True == 1`, `False == 0`; no other modelled value equals an int. -/
def pyEqInt (v : Value) (n : Int) : Bool :=
  match v with
  | .int m => m = n
  | .bool b => (if b then (1 : Int) else 0) = n
  | _ => false

/-- Python `field.format_number(value)`; the decimal branch only reaches this with
a present field. -/
def fieldFormat : Option FieldDesc → Value → String
  | some f, v => f.format_number v
  | none, _ => ""

/-- Extract the timestamp components the Python code reads off the value in
the `Database.Timestamp` branch (after normalizing a driver timestamp to
`datetime.datetime`, which preserves the components). -/
def tsOf : Value → Option TS
  | .timestamp t => some t
  | .datetime t => some t
  | _ => none

/-- The field-type dispatch inside the `Database.Timestamp` branch of
`convert_values`: `DateTimeField` first (it subclasses `DateField`), then
`DateField`, then `TimeField` or the 1900-01-01 sentinel date, then the
midnight heuristic, else keep the full datetime. -/
def tsDispatch (t : TS) (field : Option FieldDesc) : Value :=
  if fieldIsDateTime field then .datetime t
  else if fieldIsDateField field then .date t.year t.month t.day
  else if fieldIsTime field ∨ (t.year = 1900 ∧ t.month = 1 ∧ t.day = 1) then
    .time t.hour t.minute t.second t.microsecond
  else if t.hour = 0 ∧ t.minute = 0 ∧ t.second = 0 ∧ t.microsecond = 0 then
    .date t.year t.month t.day
  else .datetime t

/-- Source `OracleQuery.convert_values(value, field)`: LOB read first, then the
elif chain — null-to-empty-string, int-to-bool, decimal formatting
(`util.typecast_decimal(field.format_number(value))`, modelled from the
spec as parsing the formatted string into an exact decimal), and the
timestamp disambiguation.  A value the driver flags as a timestamp but
that carries no timestamp components is returned unchanged (the Python
would fail on attribute access there; no faithful driver produces it). -/
def convert_values (db : Database) (v0 : Value) (field : Option FieldDesc) : Value :=
  let value := if db.isLOB v0 then db.readLOB v0 else v0
  if value = Value.null ∧ fieldAllowsEmpty field then .str ""
  else if (pyEqInt value 1 ∨ pyEqInt value 0) ∧ fieldIsBool field then .bool (pyEqInt value 1)
  else if value ≠ Value.null ∧ fieldIsDecimal field then .decimal (fieldFormat field value)
  else if db.isTimestamp value then
    match tsOf value with
    | some t => tsDispatch t field
    | none => value
  else value

/-- Python 2 `map(None, xs, ys)`: pair positionally, extending to the
longer sequence and padding the shorter one with `None`. -/
def map2None : List Value → List FieldDesc → List (Value × Option FieldDesc)
  | [], fs => fs.map fun f => (Value.null, some f)
  | v :: vs, [] => (v, none) :: map2None vs []
  | v :: vs, f :: fs => (v, some f) :: map2None vs fs

/-- Source `OracleQuery.resolve_columns(row, fields)`: the first
`len(extra_select)` values are converted with no field; the rest are
paired with `fields` via Python 2's `map(None, ...)` and converted. -/
def resolve_columns (db : Database) (extra_select : List (String × String))
    (row : List Value) (fields : List FieldDesc) : List Value :=
  let index_start := extra_select.length
  (row.take index_start).map (fun v => convert_values db v none) ++
    (map2None (row.drop index_start) fields).map (fun p => convert_values db p.1 p.2)

/-- Entity field metadata: `db_column` (optional explicit column name) and
the derived `column` attribute, as read by `opts.fields[0].db_column or
opts.fields[0].column`. -/
structure EntityField where
  db_column : Option String
  column : String
deriving DecidableEq, Repr

/-- Source `self.model._meta`: the entity's table name and ordered field list. -/
structure Meta where
  db_table : String
  fields : List EntityField
deriving DecidableEq, Repr

/-- Query state shared by the compiler operations.  `low_mark` /
`high_mark` are the nullable row bounds; `extra_select` is the ordered
extra-select mapping (name, SQL fragment); `internal` stands for the base
class's column/alias bookkeeping (`_select_alias` etc.) populated by its
pre-compilation setup. -/
structure QueryState where
  low_mark : Option Nat
  high_mark : Option Nat
  extra_select : List (String × String)
  meta : Meta
  internal : Nat
deriving DecidableEq

/-- Python truthiness of a nullable integer bound: `None` and `0` are
falsy. -/
def truthyO : Option Nat → Bool
  | none => false
  | some n => n ≠ 0

/-- Source `do_offset = with_limits and (self.high_mark or self.low_mark)`. -/
def do_offset (with_limits : Bool) (st : QueryState) : Bool :=
  with_limits && (truthyO st.high_mark || truthyO st.low_mark)

/-- Update-or-append on the ordered extra-select mapping: Python dict
assignment `d[k] = v`. -/
def setKey (k v : String) : List (String × String) → List (String × String)
  | [] => [(k, v)]
  | (k', v') :: rest => if k' = k then (k, v) :: rest else (k', v') :: setKey k v rest

/-- Python `del d[k]` guarded by `if k in d` (removes the first binding). -/
def delKey (k : String) : List (String × String) → List (String × String)
  | [] => []
  | (k', v') :: rest => if k' = k then rest else (k', v') :: delKey k rest

/-- Python `k in d`. -/
def hasKey (k : String) : List (String × String) → Bool
  | [] => false
  | (k', _) :: rest => (k' == k) || hasKey k rest

/-- Python `d[k]` as a lookup. -/
def lookupKey (k : String) : List (String × String) → Option String
  | [] => none
  | (k', v') :: rest => if k' = k then some v' else lookupKey k rest

/-- Number of bindings of `k` (reachable extra-select mappings bind a key
at most once). -/
def countKey (k : String) : List (String × String) → Nat
  | [] => 0
  | (k', _) :: rest => (if k' = k then 1 else 0) + countKey k rest

/-- The base query class (`django.db.models.sql.query.Query`), an external
collaborator of this file's code.  Modelled from the spec: it provides SQL
generation (`compileSQL` returning SQL text and params), pre-compilation
setup that "populates column/alias state", a column-list accessor that
also updates that alias state, an ORDER BY accessor, and the name-quoting
function (`quote_name_unless_alias`). -/
structure BaseCompiler where
  pre_setup : QueryState → Nat
  columns : QueryState → List String × Nat
  ordering : QueryState → List String
  qn : String → String
  base_as_sql : QueryState → Bool → Bool → String × List String

/-- Source `self.pre_sql_setup()`: populates the base class's column/alias
bookkeeping. -/
def pre_sql_setup (b : BaseCompiler) (st : QueryState) : QueryState :=
  { st with internal := b.pre_setup st }

/-- Source `self.get_columns()`: returns the output column list and updates the
alias bookkeeping (`_select_alias`). -/
def get_columns (b : BaseCompiler) (st : QueryState) : List String × QueryState :=
  ((b.columns st).1, { st with internal := (b.columns st).2 })

/-- The state after `pre_sql_setup()` then `get_columns()`. -/
def setupState (b : BaseCompiler) (st : QueryState) : QueryState :=
  (get_columns b (pre_sql_setup b st)).2

/-- The ORDER BY expression for the `ROW_NUMBER()` window: the existing
ordering joined with `", "`, or — when none — the synthesized default
`qn(table).qn(first field's db_column or column)`.  `None` when the
entity declares no fields (the Python raises `IndexError` there). -/
def rn_orderby (b : BaseCompiler) (st2 : QueryState) : Option String :=
  match b.ordering st2 with
  | [] =>
    match st2.meta.fields with
    | [] => none
    | f0 :: _ => some (b.qn st2.meta.db_table ++ "." ++ b.qn (f0.db_column.getD f0.column))
  | o => some (String.intercalate ", " o)

/-- Source `'ROW_NUMBER() OVER (ORDER BY %s )' % rn_orderby` (note the space
before the closing parenthesis, as in the source). -/
def rnExpr (ob : String) : String :=
  "ROW_NUMBER() OVER (ORDER BY " ++ ob ++ " )"

/-- The mutated query state just before the inner `as_sql` call in the
offset path: setup ran, and `extra_select['rn']` holds the final
`ROW_NUMBER()` expression. -/
def compiledState (b : BaseCompiler) (st : QueryState) : Option QueryState :=
  let st2 := setupState b st
  (rn_orderby b st2).map fun ob =>
    { st2 with extra_select := setKey "rn" (rnExpr ob) st2.extra_select }

/-- The `' AND rn <= %d' % high_mark` clause, emitted only when
`self.high_mark` is truthy. -/
def highClause (high : Option Nat) : String :=
  match high with
  | some h => if h ≠ 0 then " AND rn <= " ++ toString h else ""
  | none => ""

/-- Source `OracleQuery.as_sql(with_limits, with_col_aliases)`: result SQL text,
params, and the query state after the call (the offset path mutates
`extra_select`).  `none` models the `IndexError` when a default ordering
must be synthesized but the entity has no fields.  The Python joins
`['SELECT * FROM (<sql>)', 'WHERE rn > <low>', 'AND rn <= <high>']` with
spaces; the concatenation below produces that exact string. -/
def as_sql (b : BaseCompiler) (st : QueryState) (with_limits with_col_aliases : Bool) :
    Option ((String × List String) × QueryState) :=
  if do_offset with_limits st then
    match compiledState b st with
    | none => none
    | some st3 =>
      let (sql, params) := b.base_as_sql st3 false true
      some (("SELECT * FROM (" ++ sql ++ ") WHERE rn > " ++ toString (st.low_mark.getD 0) ++
             highClause st.high_mark, params), st3)
  else some (b.base_as_sql st false with_col_aliases, st)

/-- Base `super(OracleQuery, self).set_limits(low, high)`.  Modelled from the
spec: "setLimits(low, high): store bounds on Query State (delegating to
base behavior)" with nullable integer markers. -/
def base_set_limits (low high : Option Nat) (st : QueryState) : QueryState :=
  { st with low_mark := low, high_mark := high }

/-- Base `super(OracleQuery, self).clear_limits()`.  Modelled from the spec:
"delegate to base clear-bounds behavior" — both nullable bounds are
unset. -/
def base_clear_limits (st : QueryState) : QueryState :=
  { st with low_mark := none, high_mark := none }

/-- Source `OracleQuery.set_limits`: delegate to the base, then install the
`'rn'` placeholder `'1'` in `extra_select`. -/
def set_limits (low high : Option Nat) (st : QueryState) : QueryState :=
  let st' := base_set_limits low high st
  { st' with extra_select := setKey "rn" "1" st'.extra_select }

/-- Source `OracleQuery.clear_limits`: delegate to the base, then remove the
`'rn'` entry if present. -/
def clear_limits (st : QueryState) : QueryState :=
  let st' := base_clear_limits st
  { st' with extra_select := delKey "rn" st'.extra_select }

/-- The operations a caller can perform on the query state. -/
inductive Op where
  | setLimits (low high : Option Nat)
  | clearLimits
  | asSql (b : BaseCompiler) (with_limits with_col_aliases : Bool)

/-- State effect of one operation.  For `asSql` on the offset path the
Python mutates `extra_select['rn']` before the inner call; when the
default-ordering synthesis raises, the mutations already performed by
`pre_sql_setup`/`get_columns` remain. -/
def applyOp (op : Op) (st : QueryState) : QueryState :=
  match op with
  | .setLimits low high => set_limits low high st
  | .clearLimits => clear_limits st
  | .asSql b wl _ =>
    if do_offset wl st then
      match compiledState b st with
      | some st3 => st3
      | none => setupState b st
    else st

/-- Run a sequence of operations from a starting state. -/
def run (ops : List Op) (st : QueryState) : QueryState :=
  ops.foldl (fun s op => applyOp op s) st

/-- The query state a fresh query starts from: no bounds, no extra
selects. -/
def init (m : Meta) : QueryState :=
  { low_mark := none, high_mark := none, extra_select := [], meta := m, internal := 0 }

/-- Predicate "a row-limiting operation is currently configured": at least one
truthy bound is present — exactly the condition `as_sql`'s `do_offset`
tests. -/
def configuredBounds (st : QueryState) : Bool :=
  truthyO st.high_mark || truthyO st.low_mark

/-- Effect of one operation on "a `setLimits` call is more recent than any
`clearLimits` call". -/
def stepActive (op : Op) (a : Bool) : Bool :=
  match op with
  | .setLimits _ _ => true
  | .clearLimits => false
  | .asSql _ _ _ => a

/-- Whether, after a sequence of operations, a `setLimits` call is more
recent than any `clearLimits` call (`asSql` touches neither bound). -/
def activeAfter (ops : List Op) : Bool :=
  ops.foldl (fun a op => stepActive op a) false

/-- The running invariant tying the `"rn"` extra-select marker to the
operation history: the marker's presence equals `a`, a configured bound
forces the marker, and the marker is bound at most once. -/
def rnInv (st : QueryState) (a : Bool) : Prop :=
  hasKey "rn" st.extra_select = a ∧
    (configuredBounds st = true → a = true) ∧
    countKey "rn" st.extra_select ≤ 1

/-- Identity of a base query class, the key of the process-wide cache. -/
structure QueryClass where
  id : Nat
deriving DecidableEq, Repr

/-- The specialized Oracle query class produced by the factory: it extends
its base class and closes over the driver module passed at construction
time (its `convert_values` uses that module's type markers). -/
structure OracleClass where
  base : QueryClass
  db : Database

/-- Lookup in the process-wide `_classes` cache. -/
def regFind (q : QueryClass) : List (QueryClass × OracleClass) → Option OracleClass
  | [] => none
  | (k, c) :: rest => if k = q then some c else regFind q rest

/-- Source `query_class(QueryClass, Database)`: return the cached specialized
class for this base class if present; otherwise construct one closing
over `Database`, store it under the base class, and return it. -/
def query_class (q : QueryClass) (db : Database) (reg : List (QueryClass × OracleClass)) :
    OracleClass × List (QueryClass × OracleClass) :=
  match regFind q reg with
  | some c => (c, reg)
  | none =>
    let c : OracleClass := { base := q, db := db }
    (c, (q, c) :: reg)

/-- The value conversion of a specialized class: `convert_values` with the
driver module the class closed over. -/
def classConvert (c : OracleClass) (v : Value) (f : Option FieldDesc) : Value :=
  convert_values c.db v f

/-- Does `needle` start `hay`? -/
def prefixOfB : List Char → List Char → Bool
  | [], _ => true
  | _ :: _, [] => false
  | a :: as, b :: bs => (a == b) && prefixOfB as bs

/-- Substring search over character lists. -/
def containsB (needle : List Char) : List Char → Bool
  | [] => prefixOfB needle []
  | hay@(_ :: rest) => prefixOfB needle hay || containsB needle rest

/-- Whether `needle` occurs contiguously in the string `hay`. -/
def strContains (hay needle : String) : Bool :=
  containsB needle.data hay.data

/-! Concrete fixtures used by witnesses and counterexamples. -/

/-- A character-like field: accepts the empty string, no type hint. -/
def charField : FieldDesc :=
  { empty_strings_allowed := true, kind := .plain, format_number := fun _ => "" }

/-- A boolean field. -/
def boolField : FieldDesc :=
  { empty_strings_allowed := false, kind := .boolean, format_number := fun _ => "" }

/-- A time field. -/
def timeField : FieldDesc :=
  { empty_strings_allowed := false, kind := .time, format_number := fun _ => "" }

/-- A field with no date/time/boolean/decimal type hint that rejects the
empty string. -/
def plainField : FieldDesc :=
  { empty_strings_allowed := false, kind := .plain, format_number := fun _ => "" }

/-- A decimal field with a fixed formatting rule. -/
def decimalField : FieldDesc :=
  { empty_strings_allowed := false, kind := .decimal, format_number := fun _ => "D" }

/-- A second driver module with different type markers (it flags nothing as
a LOB or a timestamp). -/
def otherDb : Database where
  isLOB := fun _ => false
  readLOB := fun v => v
  isTimestamp := fun _ => false

/-- A concrete base compiler whose SQL output is the concatenation of the
state's extra-select expressions (enough to exercise the wrapper). -/
def joinBase : BaseCompiler where
  pre_setup := fun st => st.internal
  columns := fun st => ([], st.internal)
  ordering := fun _ => []
  qn := fun s => s
  base_as_sql := fun st _ _ => (String.join (st.extra_select.map Prod.snd), [])

/-- A one-field entity living in table `T`. -/
def metaT : Meta := { db_table := "T", fields := [{ db_column := none, column := "c" }] }

/-- A query state over `metaT` with bounds `low`, `high` and no extra
selects. -/
def stT (low high : Option Nat) : QueryState :=
  { low_mark := low, high_mark := high, extra_select := [], meta := metaT, internal := 0 }

/-- The wrapper-and-lower-bound portion of the offset SQL:
`SELECT * FROM (<inner>) WHERE rn > <low>`. -/
def wrapSql (b : BaseCompiler) (st st3 : QueryState) : String :=
  "SELECT * FROM (" ++ (b.base_as_sql st3 false true).1 ++ ") WHERE rn > " ++
    toString (st.low_mark.getD 0)

/-! Theorems. -/

/-- Python 2 `map(None, ...)` extends to the longer input. -/
theorem map2None_length (vs : List Value) (fs : List FieldDesc) :
    (map2None vs fs).length = max vs.length fs.length := by
  induction vs generalizing fs with
  | nil => simp [map2None]
  | cons v vs ih =>
    cases fs with
    | nil => simp [map2None, ih]
    | cons f fs => simp [map2None, ih]; omega

/-- A prefix of `h` is a prefix of `h ++ t`. -/
theorem prefixOfB_append (n h t : List Char) (hp : prefixOfB n h = true) :
    prefixOfB n (h ++ t) = true := by
  induction n generalizing h with
  | nil => simp [prefixOfB]
  | cons a as ih =>
    cases h with
    | nil => simp [prefixOfB] at hp
    | cons b bs =>
      simp only [List.cons_append, prefixOfB, Bool.and_eq_true] at hp ⊢
      exact ⟨hp.1, ih bs hp.2⟩

/-- The empty needle occurs everywhere. -/
theorem containsB_nil_needle (l : List Char) : containsB [] l = true := by
  induction l with
  | nil => rfl
  | cons c cs ih => simp [containsB, prefixOfB]

/-- Occurrence survives appending on the right. -/
theorem containsB_append_right (n h t : List Char) (hc : containsB n h = true) :
    containsB n (h ++ t) = true := by
  induction h with
  | nil =>
    cases n with
    | nil => simpa using containsB_nil_needle t
    | cons a as => simp [containsB, prefixOfB] at hc
  | cons c cs ih =>
    simp only [List.cons_append, containsB, Bool.or_eq_true] at hc ⊢
    rcases hc with hp | hcc
    · exact Or.inl (prefixOfB_append _ _ _ hp)
    · exact Or.inr (ih hcc)

/-- Occurrence survives prepending on the left. -/
theorem containsB_append_left (n p h : List Char) (hc : containsB n h = true) :
    containsB n (p ++ h) = true := by
  induction p with
  | nil => simpa using hc
  | cons c cs ih =>
    simp only [List.cons_append, containsB, Bool.or_eq_true]
    exact Or.inr ih

/-- A substring of `s` is a substring of `pre ++ s ++ post`. -/
theorem strContains_append (pre s post needle : String)
    (hc : strContains s needle = true) :
    strContains (pre ++ s ++ post) needle = true := by
  unfold strContains at hc ⊢
  rw [String.data_append, String.data_append, List.append_assoc]
  exact containsB_append_left _ _ _ (containsB_append_right _ _ _ hc)

/-- C4: with no row bounds set, `as_sql(with_limits=True)` returns exactly
the base class's SQL generation invoked with limits disabled and the same
column-aliasing flag, unchanged (and leaves the query state untouched). -/
theorem as_sql_no_bounds_delegates (b : BaseCompiler) (st : QueryState) (a : Bool)
    (hlow : st.low_mark = none) (hhigh : st.high_mark = none) :
    as_sql b st true a = some (b.base_as_sql st false a, st) := by
  simp [as_sql, do_offset, truthyO, hlow, hhigh]

/-- Witness for C4 at a concrete one-field query with no bounds. -/
theorem as_sql_no_bounds_delegates_witness :
    as_sql joinBase (stT none none) true true =
      some (joinBase.base_as_sql (stT none none) false true, stT none none) :=
  as_sql_no_bounds_delegates joinBase (stT none none) true rfl rfl

/-- C6: at the head of `convert_values`'s first-match-wins chain, a null
value with a field that accepts the empty string becomes `""`, and the
integers 1 / 0 with a boolean-like field become `True` / `False`. -/
theorem convert_values_head_cases :
    (∀ f : FieldDesc, f.empty_strings_allowed = true →
      convert_values cxOracle Value.null (some f) = Value.str "") ∧
    (∀ f : FieldDesc, f.kind = FieldKind.boolean ∨ f.kind = FieldKind.nullBoolean →
      convert_values cxOracle (Value.int 1) (some f) = Value.bool true ∧
      convert_values cxOracle (Value.int 0) (some f) = Value.bool false) := by
  constructor
  · intro f h
    simp [convert_values, cxOracle, fieldAllowsEmpty, h]
  · intro f h
    rcases h with h | h <;> simp [convert_values, cxOracle, fieldIsBool, pyEqInt, h]

/-- Witness for C6 on a character field and a boolean field. -/
theorem convert_values_head_cases_witness :
    convert_values cxOracle Value.null (some charField) = Value.str "" ∧
    convert_values cxOracle (Value.int 1) (some boolField) = Value.bool true ∧
    convert_values cxOracle (Value.int 0) (some boolField) = Value.bool false :=
  ⟨convert_values_head_cases.1 charField rfl,
   (convert_values_head_cases.2 boolField (Or.inl rfl)).1,
   (convert_values_head_cases.2 boolField (Or.inl rfl)).2⟩

/-- C8: the factory is identity-stable — a second call with the same base
class returns the very class the first call returned, whatever driver
module is passed; a miss constructs and stores the specialized class, and
a hit returns the cached class with the registry unchanged. -/
theorem query_class_identity_stable (q : QueryClass) (db db' : Database)
    (reg : List (QueryClass × OracleClass)) :
    (query_class q db' (query_class q db reg).2).1 = (query_class q db reg).1 ∧
    (regFind q reg = none →
      query_class q db reg =
        ({ base := q, db := db }, (q, { base := q, db := db }) :: reg)) ∧
    (∀ c, regFind q reg = some c → query_class q db reg = (c, reg)) := by
  refine ⟨?_, ?_, ?_⟩
  · cases h : regFind q reg with
    | some c => simp [query_class, h]
    | none => simp [query_class, h, regFind]
  · intro h
    simp [query_class, h]
  · intro c h
    simp [query_class, h]

/-- Witness for C8: two calls on an initially empty registry, with
different driver modules, return the identical specialized class; the
first call stored it. -/
theorem query_class_identity_stable_witness :
    (query_class ⟨0⟩ otherDb (query_class ⟨0⟩ cxOracle []).2).1 =
      (query_class ⟨0⟩ cxOracle []).1 ∧
    query_class ⟨0⟩ cxOracle [] =
      ({ base := ⟨0⟩, db := cxOracle }, [(⟨0⟩, { base := ⟨0⟩, db := cxOracle })]) :=
  ⟨(query_class_identity_stable ⟨0⟩ cxOracle otherDb []).1,
   (query_class_identity_stable ⟨0⟩ cxOracle cxOracle []).2.1 rfl⟩

/-- C10: the registry is keyed only on the base class — after a first call
with driver module `d1`, a later call with the same base class and any
driver module `d2` returns the class constructed with `d1`, whose value
conversion keeps using `d1`'s large-object and timestamp type markers. -/
theorem query_class_keeps_first_driver (q : QueryClass) (d1 d2 : Database)
    (reg : List (QueryClass × OracleClass)) (h : regFind q reg = none) :
    (query_class q d2 (query_class q d1 reg).2).1.db = d1 ∧
    ∀ v f, classConvert (query_class q d2 (query_class q d1 reg).2).1 v f =
      convert_values d1 v f := by
  have h1 : query_class q d1 reg = ({ base := q, db := d1 }, (q, { base := q, db := d1 }) :: reg) := by
    simp [query_class, h]
  have h2 : (query_class q d2 (query_class q d1 reg).2).1 = { base := q, db := d1 } := by
    rw [h1]
    simp [query_class, regFind]
  exact ⟨by rw [h2], fun v f => by rw [h2, classConvert]⟩

/-- Witness for C10: the class cached for base class 0 with the `cx_Oracle`
module is returned for a later call passing the other driver, and it still
reads LOBs with `cx_Oracle`'s marker. -/
theorem query_class_keeps_first_driver_witness :
    (query_class ⟨0⟩ otherDb (query_class ⟨0⟩ cxOracle []).2).1.db = cxOracle ∧
    classConvert (query_class ⟨0⟩ otherDb (query_class ⟨0⟩ cxOracle []).2).1
      (Value.lob "x") none = Value.str "x" :=
  ⟨(query_class_keeps_first_driver ⟨0⟩ cxOracle otherDb [] rfl).1,
   ((query_class_keeps_first_driver ⟨0⟩ cxOracle otherDb [] rfl).2 (Value.lob "x") none).trans
     (by decide)⟩

/-- C9: on the offset path, the params returned by `as_sql` are exactly
the params of the inner base `as_sql` call, unmodified — the bounds are
inlined into the SQL text. -/
theorem as_sql_params_unmodified (b : BaseCompiler) (st : QueryState) (a : Bool)
    (hdo : truthyO st.high_mark || truthyO st.low_mark = true)
    (st3 : QueryState) (hc : compiledState b st = some st3) :
    ∃ sql, as_sql b st true a =
      some ((sql, (b.base_as_sql st3 false true).2), st3) := by
  refine ⟨"SELECT * FROM (" ++ (b.base_as_sql st3 false true).1 ++ ") WHERE rn > " ++
    toString (st.low_mark.getD 0) ++ highClause st.high_mark, ?_⟩
  have hdo' : do_offset true st = true := by simpa [do_offset] using hdo
  simp [as_sql, hdo', hc]

/-- Witness for C9 at a concrete bounded query. -/
theorem as_sql_params_unmodified_witness :
    ∃ sql, as_sql joinBase (stT (some 5) (some 15)) true false =
      some ((sql,
        (joinBase.base_as_sql
          { stT (some 5) (some 15) with extra_select := [("rn", rnExpr "T.c")] } false true).2),
        { stT (some 5) (some 15) with extra_select := [("rn", rnExpr "T.c")] }) :=
  as_sql_params_unmodified joinBase (stT (some 5) (some 15)) false rfl _ rfl

/-- C2 counterexample: with no extra selects, a one-value row and a
two-field list, `resolve_columns` converts the second field against a
padded null and returns two values — not `0 + min 1 2 = 1` values as the
claim's zip-to-the-shorter reading requires. -/
theorem resolve_columns_not_min :
    resolve_columns cxOracle [] [Value.int 1] [boolField, charField] =
      [Value.bool true, Value.str ""] ∧
    (resolve_columns cxOracle [] [Value.int 1] [boolField, charField]).length ≠
      ([] : List (String × String)).length +
        min ([Value.int 1] : List Value).length
          ([boolField, charField] : List FieldDesc).length :=
  ⟨by decide, by decide⟩

/-- C2 as amended: the first `len(extra_select)` values are converted with
a null field descriptor, and the remaining values are paired with the
field descriptors extending to the longer of the two sequences, padding
the shorter with null — so the output length is `len(extra_select)` plus
the maximum (not minimum) of the two lengths. -/
theorem resolve_columns_zip_longest (db : Database) (es : List (String × String))
    (row : List Value) (fields : List FieldDesc) (h : es.length ≤ row.length) :
    (resolve_columns db es row fields).take es.length =
      (row.take es.length).map (fun v => convert_values db v none) ∧
    (resolve_columns db es row fields).length =
      es.length + max (row.length - es.length) fields.length := by
  constructor
  · have hlen : ((row.take es.length).map (fun v => convert_values db v none)).length =
        es.length := by
      simp [List.length_take, Nat.min_eq_left h]
    rw [resolve_columns]
    exact List.take_left' hlen
  · simp [resolve_columns, map2None_length, List.length_take, List.length_drop,
      Nat.min_eq_left h]

/-- Witness for C2's amended statement: one extra select, a two-value row
and two fields give `1 + max 1 2 = 3` output values, the first converted
with no field. -/
theorem resolve_columns_zip_longest_witness :
    (resolve_columns cxOracle [("e", "1")] [Value.int 7, Value.int 1]
        [boolField, charField]).take 1 =
      ([Value.int 7, Value.int 1].take 1).map (fun v => convert_values cxOracle v none) ∧
    (resolve_columns cxOracle [("e", "1")] [Value.int 7, Value.int 1]
        [boolField, charField]).length = 1 + max 1 2 :=
  resolve_columns_zip_longest cxOracle [("e", "1")] [Value.int 7, Value.int 1]
    [boolField, charField] (by decide)

/-- C5 counterexample: a state with `low_mark = 5` and `high_mark = 0` has
a high bound set, yet the compiled SQL carries no `AND rn <=` clause —
`if self.high_mark:` is a truthiness test, so the claimed "if and only if
a high bound is set" fails at a high bound of 0. -/
theorem as_sql_high_zero_drops_clause :
    (stT (some 5) (some 0)).high_mark ≠ none ∧
    as_sql joinBase (stT (some 5) (some 0)) true false =
      some (("SELECT * FROM (ROW_NUMBER() OVER (ORDER BY T.c )) WHERE rn > 5", []),
        { stT (some 5) (some 0) with extra_select := [("rn", rnExpr "T.c")] }) ∧
    strContains "SELECT * FROM (ROW_NUMBER() OVER (ORDER BY T.c )) WHERE rn > 5"
      "AND rn <=" = false :=
  ⟨by decide, by rfl, by rfl⟩

/-- C5 as amended: with only `low = 5` set the output filters
`WHERE rn > 5` with no upper-bound clause; in general the
`AND rn <= <high>` clause is appended if and only if a nonzero high bound
is set (a high bound of 0, like an unset one, is falsy and yields no
clause). -/
theorem as_sql_high_clause_iff_truthy (b : BaseCompiler) (st : QueryState) (a : Bool) :
    (st.low_mark = some 5 → st.high_mark = none →
      ∀ st3, compiledState b st = some st3 →
        as_sql b st true a =
          some ((wrapSql b st st3, (b.base_as_sql st3 false true).2), st3)) ∧
    (do_offset true st = true →
      ∀ st3, compiledState b st = some st3 →
        ((∃ h, st.high_mark = some h ∧ h ≠ 0 ∧
            as_sql b st true a =
              some ((wrapSql b st st3 ++ " AND rn <= " ++ toString h,
                (b.base_as_sql st3 false true).2), st3)) ∨
          ((st.high_mark = none ∨ st.high_mark = some 0) ∧
            as_sql b st true a =
              some ((wrapSql b st st3, (b.base_as_sql st3 false true).2), st3)))) := by
  constructor
  · intro hlow hhigh st3 hc
    have hdo' : do_offset true st = true := by simp [do_offset, truthyO, hlow, hhigh]
    simp [as_sql, hdo', hc, wrapSql, highClause, hhigh, String.append_empty]
  · intro hdo st3 hc
    match hh : st.high_mark with
    | none =>
      refine Or.inr ⟨Or.inl rfl, ?_⟩
      simp [as_sql, hdo, hc, wrapSql, highClause, hh, String.append_empty]
    | some 0 =>
      refine Or.inr ⟨Or.inr rfl, ?_⟩
      simp [as_sql, hdo, hc, wrapSql, highClause, hh, String.append_empty]
    | some (h + 1) =>
      refine Or.inl ⟨h + 1, rfl, by omega, ?_⟩
      simp [as_sql, hdo, hc, wrapSql, highClause, hh, String.append_assoc]

/-- Witness for C5's amended statement at `low = 5`, no high bound. -/
theorem as_sql_high_clause_iff_truthy_witness :
    as_sql joinBase (stT (some 5) none) true false =
      some ((wrapSql joinBase (stT (some 5) none)
          { stT (some 5) none with extra_select := [("rn", rnExpr "T.c")] },
        (joinBase.base_as_sql
          { stT (some 5) none with extra_select := [("rn", rnExpr "T.c")] } false true).2),
        { stT (some 5) none with extra_select := [("rn", rnExpr "T.c")] }) :=
  (as_sql_high_clause_iff_truthy joinBase (stT (some 5) none) false).1 rfl rfl _ rfl

/-- C7 counterexample: a midnight timestamp paired with a decimal field is
captured by the earlier decimal-conversion branch, so `convert_values`
returns the formatted decimal, not the date the claim's dispatch (which
quantifies over every field descriptor) prescribes. -/
theorem convert_values_timestamp_decimal_field :
    convert_values cxOracle (Value.timestamp ⟨2020, 5, 1, 0, 0, 0, 0⟩) (some decimalField) =
      Value.decimal "D" ∧
    convert_values cxOracle (Value.timestamp ⟨2020, 5, 1, 0, 0, 0, 0⟩) (some decimalField) ≠
      Value.date 2020 5 1 :=
  ⟨by rfl, by decide⟩

/-- C7 as amended: for every driver timestamp and every field descriptor
other than a decimal-typed one, the dispatch order is: datetime-like
keeps the full date-time; else date-like truncates to the date; else a
time-like field or the 1900-01-01 sentinel date truncates to the time;
else an all-zero time truncates to the date; else the full date-time is
kept. -/
theorem convert_values_timestamp_dispatch (t : TS) (f : Option FieldDesc)
    (hnd : fieldIsDecimal f = false) :
    (fieldIsDateTime f = true →
      convert_values cxOracle (Value.timestamp t) f = Value.datetime t) ∧
    (fieldIsDateTime f = false → fieldIsDateField f = true →
      convert_values cxOracle (Value.timestamp t) f = Value.date t.year t.month t.day) ∧
    (fieldIsDateTime f = false → fieldIsDateField f = false →
      (fieldIsTime f = true ∨ (t.year = 1900 ∧ t.month = 1 ∧ t.day = 1)) →
      convert_values cxOracle (Value.timestamp t) f =
        Value.time t.hour t.minute t.second t.microsecond) ∧
    (fieldIsDateTime f = false → fieldIsDateField f = false →
      ¬(fieldIsTime f = true ∨ (t.year = 1900 ∧ t.month = 1 ∧ t.day = 1)) →
      t.hour = 0 ∧ t.minute = 0 ∧ t.second = 0 ∧ t.microsecond = 0 →
      convert_values cxOracle (Value.timestamp t) f = Value.date t.year t.month t.day) ∧
    (fieldIsDateTime f = false → fieldIsDateField f = false →
      ¬(fieldIsTime f = true ∨ (t.year = 1900 ∧ t.month = 1 ∧ t.day = 1)) →
      ¬(t.hour = 0 ∧ t.minute = 0 ∧ t.second = 0 ∧ t.microsecond = 0) →
      convert_values cxOracle (Value.timestamp t) f = Value.datetime t) := by
  have key : convert_values cxOracle (Value.timestamp t) f = tsDispatch t f := by
    simp [convert_values, cxOracle, pyEqInt, tsOf, hnd]
  refine ⟨?_, ?_, ?_, ?_, ?_⟩
  · intro h1
    rw [key]; simp [tsDispatch, h1]
  · intro h1 h2
    rw [key]; simp [tsDispatch, h1, h2]
  · intro h1 h2 h3
    rw [key]; simp [tsDispatch, h1, h2, h3]
  · intro h1 h2 h3 h4
    rw [key]; simp [tsDispatch, h1, h2, h3, h4]
  · intro h1 h2 h3 h4
    rw [key]; simp [tsDispatch, h1, h2, h3, h4]

/-- Witness for C7's amended statement: the claim's two examples —
`timestamp(1900,1,1,14,30,0)` with a time field gives `14:30:00`, and the
midnight `timestamp(2020,5,1,0,0,0)` with no type hint gives the date. -/
theorem convert_values_timestamp_dispatch_witness :
    convert_values cxOracle (Value.timestamp ⟨1900, 1, 1, 14, 30, 0, 0⟩) (some timeField) =
      Value.time 14 30 0 0 ∧
    convert_values cxOracle (Value.timestamp ⟨2020, 5, 1, 0, 0, 0, 0⟩) (some plainField) =
      Value.date 2020 5 1 :=
  ⟨(convert_values_timestamp_dispatch ⟨1900, 1, 1, 14, 30, 0, 0⟩ (some timeField) rfl).2.2.1
      rfl rfl (Or.inl rfl),
   (convert_values_timestamp_dispatch ⟨2020, 5, 1, 0, 0, 0, 0⟩ (some plainField) rfl).2.2.2.1
      rfl rfl (by decide) ⟨rfl, rfl, rfl, rfl⟩⟩

/-- Both `pre_sql_setup`/`get_columns` only touch the base class's column/alias
bookkeeping. -/
theorem setupState_meta (b : BaseCompiler) (st : QueryState) :
    (setupState b st).meta = st.meta := rfl

/-- Lemma: `setupState` preserves the extra-select mapping. -/
theorem setupState_extra (b : BaseCompiler) (st : QueryState) :
    (setupState b st).extra_select = st.extra_select := rfl

/-- Lemma: `setupState` preserves the low bound. -/
theorem setupState_low (b : BaseCompiler) (st : QueryState) :
    (setupState b st).low_mark = st.low_mark := rfl

/-- Lemma: `setupState` preserves the high bound. -/
theorem setupState_high (b : BaseCompiler) (st : QueryState) :
    (setupState b st).high_mark = st.high_mark := rfl

/-- Looking up a key just stored by `setKey` returns the stored value. -/
theorem lookupKey_setKey (k v : String) (l : List (String × String)) :
    lookupKey k (setKey k v l) = some v := by
  induction l with
  | nil => simp [setKey, lookupKey]
  | cons p rest ih =>
    obtain ⟨k', v'⟩ := p
    by_cases h : k' = k
    · simp [setKey, lookupKey, h]
    · simp [setKey, lookupKey, h, ih]

/-- C1: with `low = 5`, `high = 15` and no explicit ordering, `as_sql`
synthesizes the default ORDER BY from the table name and the first
declared field's column name (quoted), installs it in the
`ROW_NUMBER()` extra-select entry, wraps the inner base-generated SQL as
`SELECT * FROM (<inner>)`, and filters `WHERE rn > 5 AND rn <= 15`; when
the base compiler emits the extra-select expression (hypothesis `hemit`),
the output SQL contains the synthesized ORDER BY. -/
theorem as_sql_synthesized_ordering (b : BaseCompiler) (st : QueryState) (a : Bool)
    (hlow : st.low_mark = some 5) (hhigh : st.high_mark = some 15)
    (hord : b.ordering (setupState b st) = [])
    (f0 : EntityField) (fs : List EntityField) (hf : st.meta.fields = f0 :: fs)
    (hemit : ∀ st3, compiledState b st = some st3 →
      strContains (b.base_as_sql st3 false true).1
        (rnExpr (b.qn st.meta.db_table ++ "." ++ b.qn (f0.db_column.getD f0.column))) = true) :
    ∃ st3, compiledState b st = some st3 ∧
      lookupKey "rn" st3.extra_select =
        some (rnExpr (b.qn st.meta.db_table ++ "." ++ b.qn (f0.db_column.getD f0.column))) ∧
      as_sql b st true a =
        some (("SELECT * FROM (" ++ (b.base_as_sql st3 false true).1 ++
            ") WHERE rn > 5 AND rn <= 15",
          (b.base_as_sql st3 false true).2), st3) ∧
      strContains ("SELECT * FROM (" ++ (b.base_as_sql st3 false true).1 ++
          ") WHERE rn > 5 AND rn <= 15")
        (rnExpr (b.qn st.meta.db_table ++ "." ++ b.qn (f0.db_column.getD f0.column))) = true := by
  have horb : rn_orderby b (setupState b st) =
      some (b.qn st.meta.db_table ++ "." ++ b.qn (f0.db_column.getD f0.column)) := by
    rw [rn_orderby, hord, setupState_meta, hf]
  have hc : compiledState b st =
      some { setupState b st with
        extra_select := setKey "rn"
          (rnExpr (b.qn st.meta.db_table ++ "." ++ b.qn (f0.db_column.getD f0.column)))
          (setupState b st).extra_select } := by
    rw [compiledState, horb, Option.map_some']
  refine ⟨_, hc, ?_, ?_, ?_⟩
  · exact lookupKey_setKey _ _ _
  · have hdo' : do_offset true st = true := by simp [do_offset, truthyO, hlow, hhigh]
    simp only [as_sql, hdo', if_true, hc, hlow, hhigh, highClause]
    simp only [String.append_assoc]
    congr 2
  · exact strContains_append _ _ _ _ (hemit _ hc)

/-- Witness for C1 at a concrete one-field entity and a base compiler that
emits the extra-select expressions verbatim. -/
theorem as_sql_synthesized_ordering_witness :
    as_sql joinBase (stT (some 5) (some 15)) true false =
      some (("SELECT * FROM (ROW_NUMBER() OVER (ORDER BY T.c )) WHERE rn > 5 AND rn <= 15",
          []),
        { stT (some 5) (some 15) with extra_select := [("rn", rnExpr "T.c")] }) ∧
    strContains "SELECT * FROM (ROW_NUMBER() OVER (ORDER BY T.c )) WHERE rn > 5 AND rn <= 15"
      (rnExpr "T.c") = true := by
  have hcc : compiledState joinBase (stT (some 5) (some 15)) =
      some { stT (some 5) (some 15) with extra_select := [("rn", rnExpr "T.c")] } := rfl
  obtain ⟨st3, hc, hlk, hsql, hcon⟩ :=
    as_sql_synthesized_ordering joinBase (stT (some 5) (some 15)) false rfl rfl rfl
      ⟨none, "c"⟩ [] rfl
      (by
        intro st3 hc
        rw [(Option.some.inj (hcc.symm.trans hc)).symm]
        rfl)
  have hst3 : st3 = { stT (some 5) (some 15) with extra_select := [("rn", rnExpr "T.c")] } :=
    (Option.some.inj (hcc.symm.trans hc)).symm
  subst hst3
  exact ⟨hsql, hcon⟩

/-- After `setKey` the key is present. -/
theorem hasKey_setKey (k v : String) (l : List (String × String)) :
    hasKey k (setKey k v l) = true := by
  induction l with
  | nil => simp [setKey, hasKey]
  | cons p rest ih =>
    obtain ⟨k', v'⟩ := p
    by_cases h : k' = k
    · simp [setKey, hasKey, h]
    · simp [setKey, hasKey, h, ih]

/-- After `setKey` there is exactly one binding when the key was bound at most
once (update-in-place or append). -/
theorem countKey_setKey (k v : String) (l : List (String × String)) :
    countKey k (setKey k v l) = max (countKey k l) 1 := by
  induction l with
  | nil => simp [setKey, countKey]
  | cons p rest ih =>
    obtain ⟨k', v'⟩ := p
    by_cases h : k' = k
    · simp [setKey, countKey, h]
    · simp [setKey, countKey, h, ih]

/-- An unbound key is absent. -/
theorem hasKey_eq_false_of_countKey_zero (k : String) (l : List (String × String))
    (h : countKey k l = 0) : hasKey k l = false := by
  induction l with
  | nil => rfl
  | cons p rest ih =>
    obtain ⟨k', v'⟩ := p
    by_cases hk : k' = k
    · simp [countKey, hk] at h
    · simp [countKey, hk] at h
      simp [hasKey, hk, ih h]

/-- Deletion by `delKey` removes one binding. -/
theorem countKey_delKey (k : String) (l : List (String × String)) :
    countKey k (delKey k l) = countKey k l - 1 := by
  induction l with
  | nil => rfl
  | cons p rest ih =>
    obtain ⟨k', v'⟩ := p
    by_cases h : k' = k
    · simp [delKey, countKey, h]
    · simp [delKey, countKey, h, ih]

/-- Deleting a key bound at most once removes it entirely. -/
theorem hasKey_delKey (k : String) (l : List (String × String))
    (h : countKey k l ≤ 1) : hasKey k (delKey k l) = false := by
  apply hasKey_eq_false_of_countKey_zero
  rw [countKey_delKey]
  omega

/-- A successful `compiledState` is the setup state with the final
`ROW_NUMBER()` expression stored under `"rn"`; bounds and the rest of the
extra-select mapping are those of the starting state. -/
theorem compiledState_spec (b : BaseCompiler) (st st3 : QueryState)
    (h : compiledState b st = some st3) :
    ∃ ob, rn_orderby b (setupState b st) = some ob ∧
      st3 = { setupState b st with
        extra_select := setKey "rn" (rnExpr ob) st.extra_select } := by
  rw [compiledState] at h
  obtain ⟨ob, hob, hmap⟩ := Option.map_eq_some'.mp h
  exact ⟨ob, hob, hmap.symm⟩

/-- One operation preserves the `"rn"`-marker invariant, updating the
history flag by `stepActive`. -/
theorem applyOp_rnInv (op : Op) (st : QueryState) (a : Bool) (h : rnInv st a) :
    rnInv (applyOp op st) (stepActive op a) := by
  obtain ⟨h1, h2, h3⟩ := h
  cases op with
  | setLimits l hi =>
    refine ⟨hasKey_setKey _ _ _, fun _ => rfl, ?_⟩
    show countKey "rn" (setKey "rn" "1" st.extra_select) ≤ 1
    rw [countKey_setKey]
    omega
  | clearLimits =>
    refine ⟨hasKey_delKey _ _ h3, ?_, ?_⟩
    · intro hcfg
      simp [applyOp, clear_limits, base_clear_limits, configuredBounds, truthyO] at hcfg
    · show countKey "rn" (delKey "rn" st.extra_select) ≤ 1
      rw [countKey_delKey]
      omega
  | asSql b wl wca =>
    by_cases hdo : do_offset wl st = true
    · have hcfg : configuredBounds st = true := by
        have := hdo
        rw [do_offset] at this
        exact (Bool.and_eq_true _ _ |>.mp this).2
      have ha : a = true := h2 hcfg
      cases hcs : compiledState b st with
      | none =>
        simp only [applyOp, stepActive, hdo, if_true, hcs]
        exact ⟨by rw [setupState_extra, h1], fun _ => ha, by rw [setupState_extra]; exact h3⟩
      | some st3 =>
        obtain ⟨ob, hob, hst3⟩ := compiledState_spec b st st3 hcs
        simp only [applyOp, stepActive, hdo, if_true, hcs]
        subst hst3
        refine ⟨by rw [ha]; exact hasKey_setKey _ _ _, fun _ => ha, ?_⟩
        show countKey "rn" (setKey "rn" (rnExpr ob) st.extra_select) ≤ 1
        rw [countKey_setKey]
        omega
    · simp only [applyOp, stepActive, hdo, if_false]
      have hdo' : do_offset wl st = false := by
        revert hdo
        cases do_offset wl st <;> simp
      simp only [hdo', Bool.false_eq_true, if_false]
      exact ⟨h1, h2, h3⟩

/-- Running a trace preserves the `"rn"`-marker invariant, folding the
history flag over the trace. -/
theorem run_rnInv (ops : List Op) (st : QueryState) (a : Bool) (h : rnInv st a) :
    rnInv (run ops st) (ops.foldl (fun x op => stepActive op x) a) := by
  induction ops generalizing st a with
  | nil => exact h
  | cons op rest ih => exact ih (applyOp op st) (stepActive op a) (applyOp_rnInv op st a h)

/-- One operation preserves "marker present iff bounds configured",
provided a `setLimits` op passes a truthy bound. -/
theorem applyOp_rnConf (op : Op) (st : QueryState)
    (hcond : ∀ l hi, op = Op.setLimits l hi → (truthyO l || truthyO hi) = true)
    (h1 : hasKey "rn" st.extra_select = configuredBounds st)
    (h3 : countKey "rn" st.extra_select ≤ 1) :
    hasKey "rn" (applyOp op st).extra_select = configuredBounds (applyOp op st) ∧
    countKey "rn" (applyOp op st).extra_select ≤ 1 := by
  cases op with
  | setLimits l hi =>
    have htr := hcond l hi rfl
    constructor
    · show hasKey "rn" (setKey "rn" "1" st.extra_select) =
        configuredBounds (set_limits l hi st)
      rw [hasKey_setKey]
      show true = (truthyO hi || truthyO l)
      rw [Bool.or_comm] at htr
      exact htr.symm
    · show countKey "rn" (setKey "rn" "1" st.extra_select) ≤ 1
      rw [countKey_setKey]
      omega
  | clearLimits =>
    refine ⟨?_, ?_⟩
    · show hasKey "rn" (delKey "rn" st.extra_select) = configuredBounds (clear_limits st)
      rw [hasKey_delKey _ _ h3]
      rfl
    · show countKey "rn" (delKey "rn" st.extra_select) ≤ 1
      rw [countKey_delKey]
      omega
  | asSql b wl wca =>
    by_cases hdo : do_offset wl st = true
    · have hcfg : configuredBounds st = true := by
        have := hdo
        rw [do_offset] at this
        exact (Bool.and_eq_true _ _ |>.mp this).2
      cases hcs : compiledState b st with
      | none =>
        simp only [applyOp, hdo, if_true, hcs]
        constructor
        · rw [setupState_extra, h1]
          show configuredBounds st = configuredBounds (setupState b st)
          rw [configuredBounds, configuredBounds, setupState_low, setupState_high]
        · rw [setupState_extra]; exact h3
      | some st3 =>
        obtain ⟨ob, hob, hst3⟩ := compiledState_spec b st st3 hcs
        simp only [applyOp, hdo, if_true, hcs]
        subst hst3
        constructor
        · show hasKey "rn" (setKey "rn" (rnExpr ob) st.extra_select) = _
          rw [hasKey_setKey]
          show true = (truthyO st.high_mark || truthyO st.low_mark)
          exact hcfg.symm
        · show countKey "rn" (setKey "rn" (rnExpr ob) st.extra_select) ≤ 1
          rw [countKey_setKey]
          omega
    · have hdo' : do_offset wl st = false := by
        revert hdo
        cases do_offset wl st <;> simp
      simp only [applyOp, hdo', Bool.false_eq_true, if_false]
      exact ⟨h1, h3⟩

/-- Running a trace whose `setLimits` calls all pass a truthy bound
preserves "marker present iff bounds configured". -/
theorem run_rnConf (ops : List Op) (st : QueryState)
    (hmem : ∀ l hi, Op.setLimits l hi ∈ ops → (truthyO l || truthyO hi) = true)
    (h1 : hasKey "rn" st.extra_select = configuredBounds st)
    (h3 : countKey "rn" st.extra_select ≤ 1) :
    hasKey "rn" (run ops st).extra_select = configuredBounds (run ops st) ∧
    countKey "rn" (run ops st).extra_select ≤ 1 := by
  induction ops generalizing st with
  | nil => exact ⟨h1, h3⟩
  | cons op rest ih =>
    have hop := applyOp_rnConf op st
      (fun l hi he => hmem l hi (by rw [he]; exact List.mem_cons_self _ _)) h1 h3
    exact ih (applyOp op st)
      (fun l hi he => hmem l hi (List.mem_cons_of_mem _ he)) hop.1 hop.2

/-- C3 counterexample: `set_limits(None, None)` — reachable via `qs[:]` —
installs the `"rn"` marker while configuring no row-limiting bound, so
"marker present iff a row-limiting operation is configured" fails. -/
theorem rn_marker_without_bounds :
    hasKey "rn" (run [Op.setLimits none none] (init metaT)).extra_select = true ∧
    configuredBounds (run [Op.setLimits none none] (init metaT)) = false ∧
    (run [Op.setLimits none none] (init metaT)).low_mark = none ∧
    (run [Op.setLimits none none] (init metaT)).high_mark = none :=
  ⟨rfl, rfl, rfl, rfl⟩

/-- C3 as amended: in every reachable state the `"rn"` marker is present
iff a `setLimits` call is more recent than any `clearLimits` call; this
coincides with "a truthy bound is configured" on traces whose `setLimits`
calls each pass a truthy (non-null, nonzero) bound.  `setLimits` stores
the placeholder `'1'`; the final `ROW_NUMBER()` expression is only stored
by compilation. -/
theorem rn_marker_invariant :
    (∀ (m : Meta) (ops : List Op),
      hasKey "rn" (run ops (init m)).extra_select = activeAfter ops) ∧
    (∀ (m : Meta) (ops : List Op),
      (∀ l hi, Op.setLimits l hi ∈ ops → (truthyO l || truthyO hi) = true) →
      hasKey "rn" (run ops (init m)).extra_select = configuredBounds (run ops (init m))) ∧
    (∀ (st : QueryState) (l hi : Option Nat),
      lookupKey "rn" (set_limits l hi st).extra_select = some "1") ∧
    (∀ (b : BaseCompiler) (st st3 : QueryState), compiledState b st = some st3 →
      ∃ ob, rn_orderby b (setupState b st) = some ob ∧
        lookupKey "rn" st3.extra_select = some (rnExpr ob)) := by
  refine ⟨?_, ?_, ?_, ?_⟩
  · intro m ops
    exact (run_rnInv ops (init m) false ⟨rfl, by simp [init, configuredBounds, truthyO], by simp [init, countKey]⟩).1
  · intro m ops hmem
    exact (run_rnConf ops (init m) hmem rfl (by simp [init, countKey])).1
  · intro st l hi
    exact lookupKey_setKey _ _ _
  · intro b st st3 h
    obtain ⟨ob, hob, hst3⟩ := compiledState_spec b st st3 h
    subst hst3
    exact ⟨ob, hob, lookupKey_setKey _ _ _⟩

/-- Witness for C3's amended statement on the trace `setLimits(5, 15)`:
marker presence equals configuredness (both true), and the placeholder is
`'1'`. -/
theorem rn_marker_invariant_witness :
    hasKey "rn" (run [Op.setLimits (some 5) (some 15)] (init metaT)).extra_select =
      configuredBounds (run [Op.setLimits (some 5) (some 15)] (init metaT)) ∧
    configuredBounds (run [Op.setLimits (some 5) (some 15)] (init metaT)) = true ∧
    lookupKey "rn" (set_limits (some 5) (some 15) (init metaT)).extra_select = some "1" := by
  refine ⟨?_, rfl, ?_⟩
  · refine rn_marker_invariant.2.1 metaT [Op.setLimits (some 5) (some 15)] ?_
    intro l hi hm
    simp only [List.mem_singleton, Op.setLimits.injEq] at hm
    rw [hm.1, hm.2]
    rfl
  · exact rn_marker_invariant.2.2.1 (init metaT) (some 5) (some 15)

end OracleBackend

